import Mathlib

/-
Shallow embedding of the domo-query client library (src/domo_query/__init__.py).

The library is a single stateful class `Connection` issuing three kinds of
HTTP requests: a token fetch (the `login` property), an offset/limit
paginated dataset listing (the `tables` property), and a query execution
POST (the `query` method).  We model:

  * the mutable instance state as the structure `Conn`
    (fields `_login`, `_tables`, `_last_id_or_name` as in the source;
    Python's falsy values `{}`, `[]`, `""` become `[]` / `none`);
  * the remote service as an oracle `Env` (token response, dataset
    catalog served in offset/limit pages, per-offset listing failures,
    query-execution responses);
  * every operation as an explicit state-passing function returning an
    `Out α`: the result (`Except Err α`, errors modelling raised Python
    exceptions), the post-state (mutations before a raise persist, as in
    Python), and the trace of HTTP requests issued, in order.

Python dicts are modelled as ordered association lists with
insert-or-update semantics (`dictInsert` / `dictOf`), matching dict
insertion-order behaviour.
-/

namespace DomoQuery

/-- Dataset metadata entry: the dict fields the code reads (`id`, `name`).
The real service returns more fields (rows, columns, ...); only these two
are ever accessed by the client. -/
structure Meta where
  id : String
  name : String
deriving Repr, DecidableEq

/-- A JSON cell value appearing in query results. -/
inductive Cell where
  | str (s : String)
  | int (n : Int)
  | bool (b : Bool)
  | null
deriving Repr, DecidableEq

/-- Body of a successful query-execution response: `columns` and `rows`. -/
structure QueryResp where
  columns : List String
  rows : List (List Cell)
deriving Repr, DecidableEq

/-- Raised Python exceptions, as the caller observes them. -/
inductive Err where
  /-- transport/JSON/missing-field failure from an HTTP call
  (requests exception, JSON decode error, or KeyError on the response) -/
  | net
  /-- `ValueError("Must provide Dataset ID or Name.")` -/
  | usageError (msg : String)
  /-- `TypeError` from indexing the string default `""` with `["id"]` -/
  | typeError
deriving Repr, DecidableEq

/-- One HTTP request issued by the client. -/
inductive Req where
  /-- `GET auth_url` with HTTP basic auth -/
  | auth (client_id secret : String)
  /-- `GET query_url?offset=..&limit=..` -/
  | list (offset limit : Nat)
  /-- `POST query_url/query/execute/{id}?includeHeaders=true` with body `{sql}` -/
  | exec (id sql : String)
deriving Repr, DecidableEq

def Req.isList : Req → Bool
  | .list _ _ => true
  | _ => false

def Req.isAuth : Req → Bool
  | .auth _ _ => true
  | _ => false

def Req.isExec : Req → Bool
  | .exec _ _ => true
  | _ => false

/-- The remote service, as an oracle.  `authResp = none` models a failed
token fetch (transport error or missing `access_token`); `listErr k = true`
models an HTTP/JSON failure of the listing request at offset `k`;
`queryResp id sql = none` models a failed or malformed query-execution
response. -/
structure Env where
  authResp : Option String
  catalog : List Meta
  listErr : Nat → Bool
  queryResp : String → String → Option QueryResp

/-- The `Connection` dataclass state.  `_login = []` models the empty-dict
default (falsy), `_tables = []` the empty-list default (falsy), and
`_last_id_or_name = none` the `""` default (falsy; a successful
`find_table` stores the matched metadata dict). -/
structure Conn where
  client_id : String
  secret : String
  _login : List (String × String) := []
  _tables : List Meta := []
  _last_id_or_name : Option Meta := none
deriving Repr, DecidableEq

/-- Result of running one operation: the value or raised exception, the
post-call connection state, and the HTTP requests issued, in order. -/
structure Out (α : Type) where
  res : Except Err α
  conn : Conn
  reqs : List Req
deriving Repr

/-- Python dict assignment `d[k] = v`: update in place if the key exists
(keeping its position), else append. -/
def dictInsert {β : Type} : List (String × β) → String → β → List (String × β)
  | [], k, v => [(k, v)]
  | (k', v') :: rest, k, v =>
      if k' = k then (k, v) :: rest else (k', v') :: dictInsert rest k v

/-- Python dict lookup `d[k]` as an option (first matching key wins; with
`dictInsert` maintaining key uniqueness, keys are unique). -/
def dictLookup {β : Type} : List (String × β) → String → Option β
  | [], _ => none
  | (k', v) :: rest, k => if k' = k then some v else dictLookup rest k

/-- Python `dict(pairs)`: insert the pairs left to right into an empty dict. -/
def dictOf {β : Type} (ps : List (String × β)) : List (String × β) :=
  ps.foldl (fun d kv => dictInsert d kv.1 kv.2) []

/-- The page the service returns for a listing request at `offset` with
`limit = 50`: the corresponding slice of the catalog. -/
def pageFor (env : Env) (offset : Nat) : List Meta :=
  (env.catalog.drop offset).take 50

/-- The `while True` pagination loop of the `tables` property, starting at
`offset`: issue `GET ?offset=..&limit=50`; a failing request raises; an
empty chunk breaks; otherwise accumulate the chunk and advance `offset`
by 50.  Returns the accumulated datasets (or the raised error) and the
listing requests issued. -/
def paginate (env : Env) (offset : Nat) : Except Err (List Meta) × List Req :=
  if env.listErr offset then (.error .net, [.list offset 50])
  else
    if hchunk : pageFor env offset = [] then (.ok [], [.list offset 50])
    else
      let rest := paginate env (offset + 50)
      (rest.1.map (fun ds => pageFor env offset ++ ds), .list offset 50 :: rest.2)
termination_by env.catalog.length - offset
decreasing_by
  have hoff : offset < env.catalog.length := by
    by_contra hge
    have hdrop : env.catalog.drop offset = [] :=
      List.drop_eq_nil_of_le (Nat.le_of_not_lt hge)
    exact hchunk (by simp [pageFor, hdrop])
  exact Nat.sub_lt_sub_left hoff (Nat.lt_add_of_pos_right (by norm_num))

/-- The `login` property: return the cached header if the `_login` dict is
non-empty (truthy); otherwise issue the token request, build
`{"Authorization": "bearer <token>"}`, cache and return it.  A failing or
malformed token response raises. -/
def Conn.login (c : Conn) (env : Env) : Out (List (String × String)) :=
  if c._login ≠ [] then ⟨.ok c._login, c, []⟩
  else
    match env.authResp with
    | none => ⟨.error .net, c, [.auth c.client_id c.secret]⟩
    | some token =>
        let header := [("Authorization", "bearer " ++ token)]
        ⟨.ok header, { c with _login := header }, [.auth c.client_id c.secret]⟩

/-- The `tables` property: return the cached list if `_tables` is non-empty
(truthy); otherwise authenticate, run the pagination loop from offset 0,
cache the accumulated list on success, and return it.  Errors from the
token fetch or from any listing request propagate, leaving `_tables`
unassigned. -/
def Conn.tables (c : Conn) (env : Env) : Out (List Meta) :=
  if c._tables ≠ [] then ⟨.ok c._tables, c, []⟩
  else
    let l := c.login env
    match l.res with
    | .error e => ⟨.error e, l.conn, l.reqs⟩
    | .ok _header =>
        let p := paginate env 0
        match p.1 with
        | .error e => ⟨.error e, l.conn, l.reqs ++ p.2⟩
        | .ok datasets => ⟨.ok datasets, { l.conn with _tables := datasets }, l.reqs ++ p.2⟩

/-- The body of `find_table`'s scan over the catalog: for each entry in
order, check `table["name"] == id_or_name`, then
`table["id"] == id_or_name`; return the first entry that matches, falling
off the end (Python's implicit `None`) otherwise. -/
def scanTables : List Meta → String → Option Meta
  | [], _ => none
  | t :: rest, s =>
      if t.name = s then some t
      else if t.id = s then some t
      else scanTables rest s

/-- `find_table(id_or_name)`: iterate over `self.tables` (which may fetch
and cache the catalog, issuing requests); on a match, set
`_last_id_or_name` to the entry and return it; otherwise return `None`
leaving `_last_id_or_name` untouched. -/
def Conn.find_table (c : Conn) (id_or_name : String) (env : Env) : Out (Option Meta) :=
  let t := c.tables env
  match t.res with
  | .error e => ⟨.error e, t.conn, t.reqs⟩
  | .ok ts =>
      match scanTables ts id_or_name with
      | some tbl => ⟨.ok (some tbl), { t.conn with _last_id_or_name := some tbl }, t.reqs⟩
      | none => ⟨.ok none, t.conn, t.reqs⟩

/-- The record formatting of `query`: `dict(zip(columns, row))` for each
row, in row order (zip truncates at the shorter sequence; duplicate
column names overwrite as Python dicts do). -/
def formatRows (resp : QueryResp) : List (List (String × Cell)) :=
  resp.rows.map (fun row => dictOf (resp.columns.zip row))

/-- The tail of `query` once the dataset id is selected: POST the sql to
the query-execution endpoint for `id` and format the response rows; a
failing or malformed response (missing `columns`/`rows`) raises. -/
def execQuery (env : Env) (c2 : Conn) (reqs : List Req) (id sqlEff : String) :
    Out (List (List (String × Cell))) :=
  match env.queryResp id sqlEff with
  | none => ⟨.error .net, c2, reqs ++ [.exec id sqlEff]⟩
  | some resp => ⟨.ok (formatRows resp), c2, reqs ++ [.exec id sqlEff]⟩

/-- The third branch of `query`'s dataset selection: `self.find_table(
id_or_name)` followed by `id = self._last_id_or_name["id"]`.  If after the
scan `_last_id_or_name` is still the falsy default `""`, indexing it with
`["id"]` raises a `TypeError`. -/
def resolveAndExec (env : Env) (c1 : Conn) (reqs : List Req) (id_or_name sqlEff : String) :
    Out (List (List (String × Cell))) :=
  let f := c1.find_table id_or_name env
  match f.res with
  | .error e => ⟨.error e, f.conn, reqs ++ f.reqs⟩
  | .ok _ =>
      match f.conn._last_id_or_name with
      | some t => execQuery env f.conn (reqs ++ f.reqs) t.id sqlEff
      | none => ⟨.error .typeError, f.conn, reqs ++ f.reqs⟩

/-- `query(sql, id_or_name)`: authenticate (`header = self.login`), then
mutate the header dict in place with `header['Accept'] =
'application/json'` (the cached `_login` dict is the same object, so the
cache is mutated too), default the sql, select the dataset id by the
three-way branch on `id_or_name` and `_last_id_or_name`, POST the query
and format the result rows. -/
def Conn.query (c : Conn) (env : Env) (sql : String := "") (id_or_name : String := "") :
    Out (List (List (String × Cell))) :=
  let l := c.login env
  match l.res with
  | .error e => ⟨.error e, l.conn, l.reqs⟩
  | .ok header0 =>
      let header := dictInsert header0 "Accept" "application/json"
      let c1 := { l.conn with _login := header }
      let sqlEff := if sql = "" then "select * from table" else sql
      if id_or_name ≠ "" then
        match c1._last_id_or_name with
        | some t => execQuery env c1 l.reqs t.id sqlEff
        | none => resolveAndExec env c1 l.reqs id_or_name sqlEff
      else
        match c1._last_id_or_name with
        | none => ⟨.error (.usageError "Must provide Dataset ID or Name."), c1, l.reqs⟩
        | some _ => resolveAndExec env c1 l.reqs id_or_name sqlEff

/-! ### Helper lemmas: association-list dictionaries -/

theorem dictInsert_ne_nil {β : Type} (d : List (String × β)) (k : String) (v : β) :
    dictInsert d k v ≠ [] := by
  cases d with
  | nil => simp [dictInsert]
  | cons hd tl =>
      simp only [dictInsert]
      split <;> simp

theorem dictLookup_dictInsert_self {β : Type} (d : List (String × β)) (k : String) (v : β) :
    dictLookup (dictInsert d k v) k = some v := by
  induction d with
  | nil => simp [dictInsert, dictLookup]
  | cons hd tl ih =>
      by_cases hk : hd.1 = k
      · simp [dictInsert, hk, dictLookup]
      · simp [dictInsert, hk, dictLookup, ih]

theorem dictLookup_dictInsert_ne {β : Type} (d : List (String × β)) (k k' : String) (v : β)
    (h : k' ≠ k) : dictLookup (dictInsert d k v) k' = dictLookup d k' := by
  have hne : ¬k = k' := fun he => h he.symm
  induction d with
  | nil => simp [dictInsert, dictLookup, hne]
  | cons hd tl ih =>
      by_cases hk : hd.1 = k
      · subst hk
        simp [dictInsert, dictLookup, hne]
      · simp only [dictInsert, if_neg hk]
        by_cases hk' : hd.1 = k'
        · simp [dictLookup, hk']
        · simp [dictLookup, hk', ih]

theorem dictInsert_not_mem {β : Type} (d : List (String × β)) (k : String) (v : β)
    (h : k ∉ d.map Prod.fst) : dictInsert d k v = d ++ [(k, v)] := by
  induction d with
  | nil => rfl
  | cons hd tl ih =>
      simp only [List.map_cons, List.mem_cons] at h
      push_neg at h
      have hne : ¬hd.1 = k := fun he => h.1 he.symm
      simp [dictInsert, hne, ih h.2]

theorem foldl_dictInsert_of_nodup {β : Type} (ps : List (String × β)) :
    ∀ acc : List (String × β),
      (∀ k ∈ ps.map Prod.fst, k ∉ acc.map Prod.fst) →
      (ps.map Prod.fst).Nodup →
      ps.foldl (fun d kv => dictInsert d kv.1 kv.2) acc = acc ++ ps := by
  induction ps with
  | nil => intro acc _ _; simp
  | cons hd tl ih =>
      intro acc hdisj hnd
      simp only [List.map_cons, List.nodup_cons] at hnd
      have hhd : hd.1 ∉ acc.map Prod.fst := hdisj hd.1 (by simp)
      simp only [List.foldl_cons]
      rw [dictInsert_not_mem acc hd.1 hd.2 hhd]
      rw [ih (acc ++ [(hd.1, hd.2)])
        (by
          intro k hk
          simp only [List.map_append, List.mem_append, List.map_cons, List.map_nil,
            List.mem_singleton, not_or]
          refine ⟨fun hmem => hdisj k (by simp [hk]) hmem, ?_⟩
          intro hke
          exact hnd.1 (hke ▸ hk))
        hnd.2]
      simp

theorem dictOf_nodup {β : Type} (ps : List (String × β)) (h : (ps.map Prod.fst).Nodup) :
    dictOf ps = ps := by
  have := foldl_dictInsert_of_nodup ps [] (by simp) h
  simpa [dictOf] using this

theorem map_fst_zip_sublist {β : Type} :
    ∀ (ks : List String) (vs : List β), ((ks.zip vs).map Prod.fst).Sublist ks
  | [], _ => by simp
  | _ :: _, [] => by simp
  | k :: ks, v :: vs => by
      simpa using List.Sublist.cons₂ k (map_fst_zip_sublist ks vs)

theorem dictLookup_zip {β : Type} :
    ∀ (ks : List String) (vs : List β), ks.Nodup →
      ∀ (j : Nat) (hj : j < ks.length) (hv : j < vs.length),
        dictLookup (ks.zip vs) (ks.get ⟨j, hj⟩) = some (vs.get ⟨j, hv⟩)
  | [], _, _, j, hj, _ => by simp at hj
  | _ :: _, [], _, j, _, hv => by simp at hv
  | k :: ks, v :: vs, hnd, 0, hj, hv => by simp [dictLookup]
  | k :: ks, v :: vs, hnd, j + 1, hj, hv => by
      simp only [List.nodup_cons] at hnd
      have hne : k ≠ ks.get ⟨j, Nat.lt_of_succ_lt_succ hj⟩ := by
        intro he
        exact hnd.1 (he ▸ ks.get_mem j (Nat.lt_of_succ_lt_succ hj))
      simp only [List.zip_cons_cons, List.get_cons_succ, dictLookup, if_neg hne]
      exact dictLookup_zip ks vs hnd.2 j _ _

theorem dictLookup_dictOf_zip {β : Type} (ks : List String) (vs : List β) (hnd : ks.Nodup)
    (j : Nat) (hj : j < ks.length) (hv : j < vs.length) :
    dictLookup (dictOf (ks.zip vs)) (ks.get ⟨j, hj⟩) = some (vs.get ⟨j, hv⟩) := by
  rw [dictOf_nodup _ ((map_fst_zip_sublist ks vs).nodup hnd)]
  exact dictLookup_zip ks vs hnd j hj hv

/-! ### Helper lemmas: pagination -/

theorem paginate_listErr (env : Env) (offset : Nat) (h : env.listErr offset = true) :
    paginate env offset = (.error .net, [.list offset 50]) := by
  rw [paginate.eq_def]; simp [h]

theorem paginate_empty (env : Env) (offset : Nat) (h1 : env.listErr offset = false)
    (h2 : pageFor env offset = []) :
    paginate env offset = (.ok [], [.list offset 50]) := by
  rw [paginate.eq_def]; simp [h1, h2]

theorem paginate_step (env : Env) (offset : Nat) (h1 : env.listErr offset = false)
    (h2 : pageFor env offset ≠ []) :
    paginate env offset =
      ((paginate env (offset + 50)).1.map (fun ds => pageFor env offset ++ ds),
        .list offset 50 :: (paginate env (offset + 50)).2) := by
  conv_lhs => rw [paginate.eq_def]
  simp [h1, h2]

theorem paginate_reqs_isList (env : Env) (offset : Nat) :
    ∀ r ∈ (paginate env offset).2, r.isList = true := by
  induction offset using paginate.induct env with
  | case1 x hx =>
      rw [paginate_listErr env x hx]
      simp [Req.isList]
  | case2 x hx hp =>
      rw [paginate_empty env x (by simpa using hx) hp]
      simp [Req.isList]
  | case3 x hx hp ih =>
      rw [paginate_step env x (by simpa using hx) hp]
      simpa [Req.isList] using ih

theorem pageFor_nonempty_lt (env : Env) (offset : Nat) (h : pageFor env offset ≠ []) :
    offset < env.catalog.length := by
  by_contra hge
  exact h (by
    simp [pageFor, List.drop_eq_nil_of_le (Nat.le_of_not_lt hge)])

theorem paginate_no_err (env : Env) (h : ∀ k, env.listErr k = false) (offset : Nat) :
    (paginate env offset).1 = .ok (env.catalog.drop offset) ∧
    (paginate env offset).2.length = (env.catalog.length - offset + 49) / 50 + 1 := by
  induction offset using paginate.induct env with
  | case1 x hx => exact absurd (h x) (by simp [hx])
  | case2 x hx hp =>
      rw [paginate_empty env x (h x) hp]
      have hdrop : env.catalog.drop x = [] := by
        have hp2 : (env.catalog.drop x).take 50 = [] := hp
        rcases List.take_eq_nil_iff.mp hp2 with h50 | hnil
        · exact absurd h50 (by norm_num)
        · exact hnil
      have hlen : env.catalog.length ≤ x := List.drop_eq_nil_iff.mp hdrop
      constructor
      · simp [hdrop]
      · have hz : env.catalog.length - x = 0 := Nat.sub_eq_zero_of_le hlen
        simp [hz]
  | case3 x hx hp ih =>
      rw [paginate_step env x (h x) hp]
      obtain ⟨ih1, ih2⟩ := ih
      have hlt : x < env.catalog.length := pageFor_nonempty_lt env x hp
      constructor
      · rw [ih1]
        have h1 : (env.catalog.drop x).drop 50 = env.catalog.drop (x + 50) := by
          rw [List.drop_drop]
        simp only [Except.map, pageFor]
        rw [← h1, List.take_append_drop]
      · simp only [List.length_cons, ih2]
        omega

/-! ### Helper lemmas: login -/

theorem login_cached (c : Conn) (env : Env) (h : c._login ≠ []) :
    c.login env = ⟨.ok c._login, c, []⟩ := by
  simp [Conn.login, h]

theorem login_fresh_ok (c : Conn) (env : Env) (token : String)
    (h : c._login = []) (ha : env.authResp = some token) :
    c.login env = ⟨.ok [("Authorization", "bearer " ++ token)],
      { c with _login := [("Authorization", "bearer " ++ token)] },
      [.auth c.client_id c.secret]⟩ := by
  simp [Conn.login, h, ha]

theorem login_fresh_err (c : Conn) (env : Env)
    (h : c._login = []) (ha : env.authResp = none) :
    c.login env = ⟨.error .net, c, [.auth c.client_id c.secret]⟩ := by
  simp [Conn.login, h, ha]

theorem login_ok_inv (c : Conn) (env : Env) (hdr : List (String × String))
    (hl : (c.login env).res = .ok hdr) :
    hdr ≠ [] ∧ (c.login env).conn = { c with _login := hdr } := by
  by_cases hc : c._login = []
  · cases ha : env.authResp with
    | none => rw [login_fresh_err c env hc ha] at hl; exact absurd hl (by simp)
    | some token =>
        rw [login_fresh_ok c env token hc ha] at hl ⊢
        simp only [Except.ok.injEq] at hl
        subst hl
        exact ⟨by simp, rfl⟩
  · rw [login_cached c env hc] at hl ⊢
    simp only [Except.ok.injEq] at hl
    subst hl
    exact ⟨hc, by rfl⟩

theorem login_conn_frame (c : Conn) (env : Env) :
    (c.login env).conn._tables = c._tables ∧
    (c.login env).conn._last_id_or_name = c._last_id_or_name ∧
    (c.login env).conn.client_id = c.client_id ∧
    (c.login env).conn.secret = c.secret := by
  by_cases hc : c._login = []
  · cases ha : env.authResp with
    | none => rw [login_fresh_err c env hc ha]; exact ⟨rfl, rfl, rfl, rfl⟩
    | some token => rw [login_fresh_ok c env token hc ha]; exact ⟨rfl, rfl, rfl, rfl⟩
  · rw [login_cached c env hc]; exact ⟨rfl, rfl, rfl, rfl⟩

theorem login_err_conn (c : Conn) (env : Env) (e : Err)
    (hl : (c.login env).res = .error e) : (c.login env).conn = c := by
  by_cases hc : c._login = []
  · cases ha : env.authResp with
    | none => rw [login_fresh_err c env hc ha]
    | some token => rw [login_fresh_ok c env token hc ha] at hl; exact absurd hl (by simp)
  · rw [login_cached c env hc] at hl; exact absurd hl (by simp)

/-! ### Helper lemmas: tables -/

theorem tables_cached (c : Conn) (env : Env) (h : c._tables ≠ []) :
    c.tables env = ⟨.ok c._tables, c, []⟩ := by
  simp [Conn.tables, h]

theorem tables_fetch_ok (c : Conn) (env : Env) (hdr : List (String × String))
    (hc : c._tables = []) (hl : (c.login env).res = .ok hdr)
    (hne : ∀ k, env.listErr k = false) :
    c.tables env = ⟨.ok env.catalog, { (c.login env).conn with _tables := env.catalog },
      (c.login env).reqs ++ (paginate env 0).2⟩ := by
  have hp1 : (paginate env 0).1 = .ok env.catalog := by
    have := (paginate_no_err env hne 0).1
    simpa using this
  simp only [Conn.tables, hc, ne_eq, not_true_eq_false, if_false, hl, hp1]

theorem tables_ok_conn_tables (c : Conn) (env : Env) (ts : List Meta)
    (h : (c.tables env).res = .ok ts) : (c.tables env).conn._tables = ts := by
  by_cases hc : c._tables = []
  · simp only [Conn.tables, hc, ne_eq, not_true_eq_false, if_false] at h ⊢
    cases hl : (c.login env).res with
    | error e => simp [hl] at h
    | ok hdr =>
        simp only [hl] at h ⊢
        cases hp : (paginate env 0).1 with
        | error e => simp [hp] at h
        | ok ds =>
            simp only [hp] at h ⊢
            simp only [Except.ok.injEq] at h
            simp [h]
  · rw [tables_cached c env hc] at h ⊢
    simp only [Except.ok.injEq] at h
    simp [h]

theorem tables_eq_cases (c : Conn) (env : Env) (hc : c._tables = []) :
    c.tables env =
      match (c.login env).res with
      | .error e => ⟨.error e, (c.login env).conn, (c.login env).reqs⟩
      | .ok _ =>
          match (paginate env 0).1 with
          | .error e => ⟨.error e, (c.login env).conn, (c.login env).reqs ++ (paginate env 0).2⟩
          | .ok ds => ⟨.ok ds, { (c.login env).conn with _tables := ds },
              (c.login env).reqs ++ (paginate env 0).2⟩ := by
  simp only [Conn.tables, hc, ne_eq, not_true_eq_false, if_false]

theorem tables_err_inv (c : Conn) (env : Env) (e : Err)
    (h : (c.tables env).res = .error e) :
    (c.tables env).conn._tables = c._tables ∧
    (c._login ≠ [] → (c.tables env).conn = c) ∧
    c._tables = [] := by
  by_cases hc : c._tables = []
  · rw [tables_eq_cases c env hc] at h ⊢
    cases hl : (c.login env).res with
    | error e' =>
        have hconn := login_err_conn c env e' hl
        simp only [hl]
        exact ⟨by rw [hconn], fun _ => hconn, hc⟩
    | ok hdr =>
        simp only [hl] at h ⊢
        cases hp : (paginate env 0).1 with
        | error e' =>
            simp only [hp]
            refine ⟨(login_conn_frame c env).1, ?_, hc⟩
            intro hlog
            rw [login_cached c env hlog]
        | ok ds => simp [hp] at h
  · rw [tables_cached c env hc] at h
    exact absurd h (by simp)

theorem tables_conn_last (c : Conn) (env : Env) :
    (c.tables env).conn._last_id_or_name = c._last_id_or_name := by
  by_cases hc : c._tables = []
  · simp only [Conn.tables, hc, ne_eq, not_true_eq_false, if_false]
    cases hl : (c.login env).res with
    | error e => simpa using (login_conn_frame c env).2.1
    | ok hdr =>
        cases hp : (paginate env 0).1 with
        | error e => simpa [hl, hp] using (login_conn_frame c env).2.1
        | ok ds => simpa [hl, hp] using (login_conn_frame c env).2.1
  · rw [tables_cached c env hc]

theorem tables_conn_login_of_cached (c : Conn) (env : Env) (h : c._login ≠ []) :
    (c.tables env).conn._login = c._login := by
  by_cases hc : c._tables = []
  · rw [tables_eq_cases c env hc, login_cached c env h]
    cases hp : (paginate env 0).1 with
    | error e => simp [hp]
    | ok ds => simp [hp]
  · rw [tables_cached c env hc]

/-! ### Helper lemmas: find_table and query -/

theorem scanTables_eq_find (ts : List Meta) (s : String) :
    scanTables ts s = ts.find? (fun t => t.name == s || t.id == s) := by
  induction ts with
  | nil => rfl
  | cons t rest ih =>
      by_cases h1 : t.name = s
      · simp [scanTables, h1, List.find?_cons]
      · by_cases h2 : t.id = s
        · simp [scanTables, h1, h2, List.find?_cons]
        · simp [scanTables, h1, h2, List.find?_cons, ih]

theorem find_table_run (c : Conn) (env : Env) (s : String) (ts : List Meta)
    (h : (c.tables env).res = .ok ts) :
    c.find_table s env =
      match scanTables ts s with
      | some tbl => ⟨.ok (some tbl),
          { (c.tables env).conn with _last_id_or_name := some tbl }, (c.tables env).reqs⟩
      | none => ⟨.ok none, (c.tables env).conn, (c.tables env).reqs⟩ := by
  simp only [Conn.find_table, h]

theorem find_table_err (c : Conn) (env : Env) (s : String) (e : Err)
    (h : (c.tables env).res = .error e) :
    c.find_table s env = ⟨.error e, (c.tables env).conn, (c.tables env).reqs⟩ := by
  simp only [Conn.find_table, h]

theorem query_ok_login (c : Conn) (env : Env) (sql idn : String) (hdr : List (String × String))
    (hl : (c.login env).res = .ok hdr) :
    c.query env sql idn =
      (let header := dictInsert hdr "Accept" "application/json"
       let c1 : Conn := { (c.login env).conn with _login := header }
       let sqlEff := if sql = "" then "select * from table" else sql
       if idn ≠ "" then
         match c1._last_id_or_name with
         | some t => execQuery env c1 (c.login env).reqs t.id sqlEff
         | none => resolveAndExec env c1 (c.login env).reqs idn sqlEff
       else
         match c1._last_id_or_name with
         | none => ⟨.error (.usageError "Must provide Dataset ID or Name."), c1,
             (c.login env).reqs⟩
         | some _ => resolveAndExec env c1 (c.login env).reqs idn sqlEff) := by
  simp only [Conn.query, hl]

theorem query_err_login (c : Conn) (env : Env) (sql idn : String) (e : Err)
    (hl : (c.login env).res = .error e) :
    c.query env sql idn = ⟨.error e, (c.login env).conn, (c.login env).reqs⟩ := by
  simp only [Conn.query, hl]

theorem login_reqs_no_list (c : Conn) (env : Env) :
    (c.login env).reqs.filter Req.isList = [] := by
  by_cases hc : c._login = []
  · cases ha : env.authResp with
    | none => rw [login_fresh_err c env hc ha]; rfl
    | some token => rw [login_fresh_ok c env token hc ha]; rfl
  · rw [login_cached c env hc]; rfl

/-! ### Concrete fixtures used by counterexamples and witnesses -/

/-- A sample dataset-metadata entry. -/
def meta0 : Meta := ⟨"D0", "dataset0"⟩

/-- A freshly constructed Connection (all lazy fields at their defaults). -/
def conn0 : Conn := { client_id := "cid", secret := "sec" }

/-- A healthy remote domain with exactly 120 datasets and no failures. -/
def env120 : Env := ⟨some "tok", List.replicate 120 meta0, fun _ => false, fun _ _ => none⟩

/-- A healthy remote domain with exactly 0 datasets and no failures. -/
def envEmpty : Env := ⟨some "tok", [], fun _ => false, fun _ _ => none⟩

/-! ### Claim C1 -/

/-- Claim C1 (amended): for every catalog served with page size 50 and no
failures, the `tables` property returns all entries in fetch order; a
catalog of exactly 120 datasets takes exactly 4 listing requests (pages of
50, 50, 20, and a final empty page), and a catalog of exactly 0 datasets
takes exactly 1 listing request and returns an empty sequence. -/
theorem C1_pagination (c : Conn) (env : Env) (hdr : List (String × String))
    (hc : c._tables = []) (hl : (c.login env).res = .ok hdr)
    (hne : ∀ k, env.listErr k = false) :
    (c.tables env).res = .ok env.catalog ∧
    (env.catalog.length = 120 →
      ((c.tables env).reqs.filter Req.isList).length = 4) ∧
    (env.catalog.length = 0 →
      ((c.tables env).reqs.filter Req.isList).length = 1) := by
  rw [tables_fetch_ok c env hdr hc hl hne]
  refine ⟨rfl, ?_, ?_⟩ <;>
    · intro hlen
      have hcount := (paginate_no_err env hne 0).2
      have hfilt : (paginate env 0).2.filter Req.isList = (paginate env 0).2 :=
        List.filter_eq_self.mpr (fun r hr => paginate_reqs_isList env 0 r hr)
      simp only [List.filter_append, login_reqs_no_list, List.nil_append, hfilt]
      rw [hcount, hlen]

/-- Claim C1 counterexample: against a domain of exactly 120 datasets the
client issues 4 listing requests (the 120 entries are still all returned
in order), refuting the claimed count of exactly 3. -/
theorem C1_counterexample :
    (conn0.tables env120).res = .ok env120.catalog ∧
    ((conn0.tables env120).reqs.filter Req.isList).length = 4 ∧
    ((conn0.tables env120).reqs.filter Req.isList).length ≠ 3 := by
  have hl : (conn0.login env120).res = .ok [("Authorization", "bearer " ++ "tok")] := rfl
  have hne : ∀ k, env120.listErr k = false := fun _ => rfl
  rw [tables_fetch_ok conn0 env120 _ rfl hl hne]
  have hcount := (paginate_no_err env120 hne 0).2
  have hfilt : (paginate env120 0).2.filter Req.isList = (paginate env120 0).2 :=
    List.filter_eq_self.mpr (fun r hr => paginate_reqs_isList env120 0 r hr)
  have hlen : env120.catalog.length = 120 := by simp [env120]
  refine ⟨rfl, ?_, ?_⟩ <;>
      simp only [List.filter_append, login_reqs_no_list, List.nil_append, hfilt] <;>
      rw [hcount, hlen] <;> decide

/-- Witness for C1_pagination at the concrete 120-dataset domain. -/
theorem C1_pagination_witness :
    conn0._tables = [] ∧
    ((conn0.tables env120).res = .ok env120.catalog ∧
     (env120.catalog.length = 120 →
       ((conn0.tables env120).reqs.filter Req.isList).length = 4) ∧
     (env120.catalog.length = 0 →
       ((conn0.tables env120).reqs.filter Req.isList).length = 1)) :=
  ⟨rfl, C1_pagination conn0 env120 [("Authorization", "bearer " ++ "tok")] rfl rfl
    (fun _ => rfl)⟩

/-! ### Claim C2 -/

/-- Claim C2 counterexample: on a freshly constructed Connection,
`query()` with empty sql and empty id_or_name does raise the usage error,
but only after issuing the token request (`header = self.login` runs
first), refuting "before any network call". -/
theorem C2_counterexample :
    (conn0.query envEmpty "" "").res = .error (.usageError "Must provide Dataset ID or Name.") ∧
    (conn0.query envEmpty "" "").reqs = [.auth "cid" "sec"] := by
  constructor <;> rfl

/-- Claim C2 (amended): on a freshly constructed Connection (empty login
cache, no prior resolution) whose token fetch succeeds, `query()` with
both arguments empty raises the usage error after exactly the one
authentication request and before any dataset-listing or query-execution
request. -/
theorem C2_usage_after_auth (c : Conn) (env : Env) (token : String)
    (hlogin : c._login = []) (hlast : c._last_id_or_name = none)
    (ha : env.authResp = some token) :
    (c.query env "" "").res = .error (.usageError "Must provide Dataset ID or Name.") ∧
    (c.query env "" "").reqs = [.auth c.client_id c.secret] ∧
    ∀ r ∈ (c.query env "" "").reqs, r.isList = false ∧ r.isExec = false := by
  have hl := login_fresh_ok c env token hlogin ha
  have hres : (c.login env).res = .ok [("Authorization", "bearer " ++ token)] := by rw [hl]
  rw [query_ok_login c env "" "" _ hres]
  simp [hl, hlast, Req.isList, Req.isExec]

/-- Witness for C2_usage_after_auth on the concrete fresh connection. -/
theorem C2_usage_after_auth_witness :
    conn0._login = [] ∧
    ((conn0.query envEmpty "" "").res = .error (.usageError "Must provide Dataset ID or Name.") ∧
     (conn0.query envEmpty "" "").reqs = [.auth conn0.client_id conn0.secret] ∧
     ∀ r ∈ (conn0.query envEmpty "" "").reqs, r.isList = false ∧ r.isExec = false) :=
  ⟨rfl, C2_usage_after_auth conn0 envEmpty "tok" rfl rfl rfl⟩

/-! ### Claim C3 -/

/-- Claim C3 counterexample: a first `tables` pass over a domain with 0
datasets succeeds returning the empty catalog, yet a second access
re-issues a listing request (the empty cached list is falsy), refuting
"cached ... in particular also when the first successful pass returned an
empty catalog". -/
theorem C3_counterexample :
    (conn0.tables envEmpty).res = .ok [] ∧
    ((conn0.tables envEmpty).conn.tables envEmpty).reqs = [.list 0 50] := by
  have hne : ∀ k, envEmpty.listErr k = false := fun _ => rfl
  have hp : paginate envEmpty 0 = (.ok [], [.list 0 50]) := paginate_empty envEmpty 0 rfl rfl
  have h1 : conn0.tables envEmpty =
      ⟨.ok [], { conn0 with _login := [("Authorization", "bearer " ++ "tok")] },
        [.auth "cid" "sec", .list 0 50]⟩ := by
    rw [tables_fetch_ok conn0 envEmpty [("Authorization", "bearer " ++ "tok")] rfl rfl hne, hp]
    rfl
  rw [h1]
  refine ⟨rfl, ?_⟩
  show (({ conn0 with
      _login := [("Authorization", "bearer " ++ "tok")] } : Conn).tables envEmpty).reqs
    = [.list 0 50]
  rw [tables_fetch_ok ({ conn0 with _login := [("Authorization", "bearer " ++ "tok")] } : Conn)
    envEmpty [("Authorization", "bearer " ++ "tok")] rfl rfl hne, hp]
  rfl

/-- Claim C3 (amended): once `tables` has returned a NONEMPTY catalog, it
is cached: every subsequent access, against any remote state, returns the
same catalog with no requests.  (A successful pass returning an empty
catalog leaves the cache falsy and a later access re-fetches, per the
counterexample.) -/
theorem C3_memoized (c : Conn) (env : Env) (ts : List Meta)
    (h : (c.tables env).res = .ok ts) (hts : ts ≠ []) :
    (c.tables env).conn._tables = ts ∧
    ∀ env2, (c.tables env).conn.tables env2 = ⟨.ok ts, (c.tables env).conn, []⟩ := by
  have h1 := tables_ok_conn_tables c env ts h
  refine ⟨h1, fun env2 => ?_⟩
  rw [tables_cached _ env2 (by rw [h1]; exact hts), h1]

/-- Witness for C3_memoized at the 120-dataset domain. -/
theorem C3_memoized_witness :
    (conn0.tables env120).res = .ok env120.catalog ∧
    ((conn0.tables env120).conn._tables = env120.catalog ∧
     ∀ env2, (conn0.tables env120).conn.tables env2 =
       ⟨.ok env120.catalog, (conn0.tables env120).conn, []⟩) := by
  have h : (conn0.tables env120).res = .ok env120.catalog := by
    rw [tables_fetch_ok conn0 env120 [("Authorization", "bearer " ++ "tok")] rfl rfl
      (fun _ => rfl)]
  refine ⟨h, C3_memoized conn0 env120 env120.catalog h ?_⟩
  intro hnil
  have hlen := congrArg List.length hnil
  simp [env120] at hlen

/-! ### Claim C8 -/

/-- A request that is a listing request is not an auth request. -/
theorem isList_not_isAuth (r : Req) (h : r.isList = true) : r.isAuth = false := by
  cases r <;> simp_all [Req.isList, Req.isAuth]

theorem tables_err_reqs_no_auth (c : Conn) (env : Env) (e : Err)
    (h : (c.tables env).res = .error e) (hlog : c._login ≠ []) :
    (c.tables env).reqs.filter Req.isAuth = [] := by
  by_cases hc : c._tables = []
  · rw [tables_eq_cases c env hc] at h ⊢
    rw [login_cached c env hlog] at h ⊢
    cases hp : (paginate env 0).1 with
    | error e' =>
        simp only [hp]
        simp only [List.nil_append]
        rw [List.filter_eq_nil_iff]
        intro r hr
        simp [isList_not_isAuth r (paginate_reqs_isList env 0 r hr)]
    | ok ds => simp [hp] at h
  · rw [tables_cached c env hc] at h
    exact absurd h (by simp)

/-- Claim C8: if a `tables` fetch fails (auth failure or HTTP/JSON failure
mid-pagination), the error propagates and the caching state is as the
claim describes: no partial catalog is cached (`_tables` is unchanged, and
a failure can only happen when no catalog was cached), and an
already-cached auth header means the connection state is completely
untouched and no new token request was issued (the cached header was
reused). -/
theorem C8_error_no_partial_cache (c : Conn) (env : Env) (e : Err)
    (h : (c.tables env).res = .error e) :
    (c.tables env).conn._tables = c._tables ∧
    c._tables = [] ∧
    (c._login ≠ [] →
      (c.tables env).conn = c ∧ (c.tables env).reqs.filter Req.isAuth = []) := by
  obtain ⟨h1, h2, h3⟩ := tables_err_inv c env e h
  exact ⟨h1, h3, fun hlog => ⟨h2 hlog, tables_err_reqs_no_auth c env e h hlog⟩⟩

/-- A connection whose auth header is already cached. -/
def connLoggedIn : Conn := { conn0 with _login := [("Authorization", "bearer " ++ "tok")] }

/-- A domain of 60 datasets whose listing request at offset 50 fails. -/
def envFail : Env :=
  ⟨some "tok", List.replicate 60 meta0, fun k => decide (k = 50), fun _ _ => none⟩

/-- Witness for C8_error_no_partial_cache: a failure on the second listing
page of a 60-dataset domain, with the auth header already cached. -/
theorem C8_error_no_partial_cache_witness :
    ((connLoggedIn.tables envFail).res = .error .net) ∧
    ((connLoggedIn.tables envFail).conn._tables = connLoggedIn._tables ∧
     connLoggedIn._tables = [] ∧
     (connLoggedIn._login ≠ [] →
       (connLoggedIn.tables envFail).conn = connLoggedIn ∧
       (connLoggedIn.tables envFail).reqs.filter Req.isAuth = [])) := by
  have hp50 : paginate envFail 50 = (.error .net, [.list 50 50]) :=
    paginate_listErr envFail 50 rfl
  have hne0 : pageFor envFail 0 ≠ [] := by
    intro hnil
    have hlen := congrArg List.length hnil
    simp [envFail, pageFor] at hlen
  have hp0 : (paginate envFail 0).1 = .error .net := by
    rw [paginate_step envFail 0 rfl hne0, hp50]
    rfl
  have h : (connLoggedIn.tables envFail).res = .error .net := by
    rw [tables_eq_cases connLoggedIn envFail rfl,
      login_cached connLoggedIn envFail (by simp [connLoggedIn])]
    simp [hp0]
  exact ⟨h, C8_error_no_partial_cache connLoggedIn envFail .net h⟩

/-! ### Claim C7 -/

/-- Claim C7: on a connection with no cached header and a working token
endpoint, the first login access issues exactly the one token request,
returns and caches `Authorization: "bearer <token>"`, and a second access
(against any remote state) returns the identical cached header with no
request; across the two calls exactly one token request is issued. -/
theorem C7_login_memoized (c : Conn) (env env2 : Env) (token : String)
    (hfresh : c._login = []) (ha : env.authResp = some token) :
    (c.login env).res = .ok [("Authorization", "bearer " ++ token)] ∧
    (c.login env).reqs = [.auth c.client_id c.secret] ∧
    (c.login env).conn._login = [("Authorization", "bearer " ++ token)] ∧
    (c.login env).conn.login env2 =
      ⟨.ok [("Authorization", "bearer " ++ token)], (c.login env).conn, []⟩ ∧
    (((c.login env).reqs ++ ((c.login env).conn.login env2).reqs).filter Req.isAuth).length
      = 1 := by
  have hl := login_fresh_ok c env token hfresh ha
  rw [hl]
  refine ⟨rfl, rfl, rfl, ?_, ?_⟩
  · rw [login_cached _ env2 (by simp)]
  · rw [login_cached _ env2 (by simp)]
    simp [Req.isAuth]

/-- Witness for C7_login_memoized on the concrete fresh connection. -/
theorem C7_login_memoized_witness :
    conn0._login = [] ∧
    ((conn0.login envEmpty).res = .ok [("Authorization", "bearer " ++ "tok")] ∧
     (conn0.login envEmpty).reqs = [.auth conn0.client_id conn0.secret] ∧
     (conn0.login envEmpty).conn._login = [("Authorization", "bearer " ++ "tok")] ∧
     (conn0.login envEmpty).conn.login env120 =
       ⟨.ok [("Authorization", "bearer " ++ "tok")], (conn0.login envEmpty).conn, []⟩ ∧
     (((conn0.login envEmpty).reqs ++
         ((conn0.login envEmpty).conn.login env120).reqs).filter Req.isAuth).length = 1) :=
  ⟨rfl, C7_login_memoized conn0 envEmpty env120 "tok" rfl rfl⟩

/-! ### Claim C9 -/

theorem execQuery_conn (env : Env) (c2 : Conn) (reqs : List Req) (id sqlEff : String) :
    (execQuery env c2 reqs id sqlEff).conn = c2 := by
  cases hq : env.queryResp id sqlEff <;> simp [execQuery, hq]

theorem find_table_conn_login (c : Conn) (env : Env) (s : String) (h : c._login ≠ []) :
    (c.find_table s env).conn._login = c._login := by
  cases ht : (c.tables env).res with
  | error e =>
      rw [find_table_err c env s e ht]
      exact tables_conn_login_of_cached c env h
  | ok ts =>
      rw [find_table_run c env s ts ht]
      cases hscan : scanTables ts s with
      | some tbl => simpa [hscan] using tables_conn_login_of_cached c env h
      | none => simpa [hscan] using tables_conn_login_of_cached c env h

theorem resolveAndExec_conn_login (env : Env) (c1 : Conn) (reqs : List Req)
    (idn sqlEff : String) (h : c1._login ≠ []) :
    (resolveAndExec env c1 reqs idn sqlEff).conn._login = c1._login := by
  unfold resolveAndExec
  cases hf : (c1.find_table idn env).res with
  | error e => simpa [hf] using find_table_conn_login c1 env idn h
  | ok v =>
      simp only [hf]
      cases hlast : (c1.find_table idn env).conn._last_id_or_name with
      | some t =>
          simp only [hlast, execQuery_conn]
          exact find_table_conn_login c1 env idn h
      | none => simpa [hlast] using find_table_conn_login c1 env idn h

theorem query_conn_login (c : Conn) (env : Env) (sql idn : String)
    (hdr : List (String × String)) (hl : (c.login env).res = .ok hdr) :
    (c.query env sql idn).conn._login = dictInsert hdr "Accept" "application/json" := by
  rw [query_ok_login c env sql idn hdr hl]
  have hc1 : ({ (c.login env).conn with
      _login := dictInsert hdr "Accept" "application/json" } : Conn)._login ≠ [] := by
    simp [dictInsert_ne_nil]
  by_cases hidn : idn = ""
  · simp only [hidn, ne_eq, not_true_eq_false, if_false]
    cases hlast : ({ (c.login env).conn with
        _login := dictInsert hdr "Accept" "application/json" } : Conn)._last_id_or_name with
    | none => simp [hlast]
    | some t =>
        simp only [hlast]
        exact resolveAndExec_conn_login env _ _ "" _ hc1
  · simp only [ne_eq, hidn, not_false_eq_true, if_true]
    cases hlast : ({ (c.login env).conn with
        _login := dictInsert hdr "Accept" "application/json" } : Conn)._last_id_or_name with
    | none =>
        simp only [hlast]
        exact resolveAndExec_conn_login env _ _ idn _ hc1
    | some t => simp [hlast, execQuery_conn]

/-- Claim C9: every `query` call that gets past authentication mutates the
cached header dict in place, adding the `Accept: application/json` entry:
afterwards the connection's cached login dict is exactly the old header
with `Accept` inserted (`Authorization` and every other key preserved),
and every subsequent login access, against any remote state, returns that
two-key dict without a network call. -/
theorem C9_header_mutation (c : Conn) (env : Env) (sql idn : String)
    (hdr : List (String × String)) (hl : (c.login env).res = .ok hdr) :
    (c.query env sql idn).conn._login = dictInsert hdr "Accept" "application/json" ∧
    dictLookup (c.query env sql idn).conn._login "Accept" = some "application/json" ∧
    (∀ k, k ≠ "Accept" →
      dictLookup (c.query env sql idn).conn._login k = dictLookup hdr k) ∧
    ∀ env2, (c.query env sql idn).conn.login env2 =
      ⟨.ok (c.query env sql idn).conn._login, (c.query env sql idn).conn, []⟩ := by
  have h1 := query_conn_login c env sql idn hdr hl
  refine ⟨h1, ?_, ?_, ?_⟩
  · rw [h1]; exact dictLookup_dictInsert_self hdr "Accept" "application/json"
  · intro k hk
    rw [h1]
    exact dictLookup_dictInsert_ne hdr "Accept" k "application/json" hk
  · intro env2
    exact login_cached _ env2 (by rw [h1]; exact dictInsert_ne_nil hdr _ _)

/-- Witness for C9_header_mutation: a query on a fresh connection (the
usage-error path, which still mutates the header before raising). -/
theorem C9_header_mutation_witness :
    (conn0.login envEmpty).res = .ok [("Authorization", "bearer " ++ "tok")] ∧
    ((conn0.query envEmpty "" "").conn._login =
       dictInsert [("Authorization", "bearer " ++ "tok")] "Accept" "application/json" ∧
     dictLookup (conn0.query envEmpty "" "").conn._login "Accept" =
       some "application/json" ∧
     (∀ k, k ≠ "Accept" →
       dictLookup (conn0.query envEmpty "" "").conn._login k =
         dictLookup [("Authorization", "bearer " ++ "tok")] k) ∧
     ∀ env2, (conn0.query envEmpty "" "").conn.login env2 =
       ⟨.ok (conn0.query envEmpty "" "").conn._login, (conn0.query envEmpty "" "").conn, []⟩) :=
  ⟨rfl, C9_header_mutation conn0 envEmpty "" "" [("Authorization", "bearer " ++ "tok")] rfl⟩

/-! ### Claim C4 -/

/-- Claim C4: with the catalog fetched successfully, `find_table` returns
the first catalog entry (in fetch order) matching the input on name or id
(name checked before id within each entry), sets `_last_id_or_name` to
that entry on a match, and on no match returns the absent value leaving
`_last_id_or_name` exactly as it was. -/
theorem C4_resolve (c : Conn) (env : Env) (s : String) (ts : List Meta)
    (h : (c.tables env).res = .ok ts) :
    ((c.find_table s env).res = .ok (ts.find? (fun t => t.name == s || t.id == s))) ∧
    (∀ t, ts.find? (fun t' => t'.name == s || t'.id == s) = some t →
       (c.find_table s env).conn._last_id_or_name = some t) ∧
    (ts.find? (fun t => t.name == s || t.id == s) = none →
       (c.find_table s env).conn._last_id_or_name = c._last_id_or_name) := by
  rw [find_table_run c env s ts h, ← scanTables_eq_find]
  cases hscan : scanTables ts s with
  | some tbl =>
      refine ⟨by simp, ?_, ?_⟩
      · intro t ht
        simp only [Option.some.injEq] at ht
        simp [ht]
      · intro hnone
        exact absurd hnone (by simp)
  | none =>
      refine ⟨by simp, ?_, ?_⟩
      · intro t ht
        exact absurd ht (by simp)
      · intro _
        simpa using tables_conn_last c env

/-- The spec's example catalog: Sales and Inventory. -/
def envSales : Env :=
  ⟨some "tok", [⟨"A1", "Sales"⟩, ⟨"A2", "Inventory"⟩], fun _ => false, fun _ _ => none⟩

/-- Witness for C4_resolve: resolving "Sales" against the example catalog
finds the first entry. -/
theorem C4_resolve_witness :
    (conn0.tables envSales).res = .ok envSales.catalog ∧
    (envSales.catalog.find? (fun t => t.name == "Sales" || t.id == "Sales") =
      some ⟨"A1", "Sales"⟩) ∧
    (((conn0.find_table "Sales" envSales).res =
        .ok (envSales.catalog.find? (fun t => t.name == "Sales" || t.id == "Sales"))) ∧
     (∀ t, envSales.catalog.find? (fun t' => t'.name == "Sales" || t'.id == "Sales") = some t →
        (conn0.find_table "Sales" envSales).conn._last_id_or_name = some t) ∧
     (envSales.catalog.find? (fun t => t.name == "Sales" || t.id == "Sales") = none →
        (conn0.find_table "Sales" envSales).conn._last_id_or_name =
          conn0._last_id_or_name)) := by
  have h : (conn0.tables envSales).res = .ok envSales.catalog := by
    rw [tables_fetch_ok conn0 envSales [("Authorization", "bearer " ++ "tok")] rfl rfl
      (fun _ => rfl)]
  exact ⟨h, by decide, C4_resolve conn0 envSales "Sales" envSales.catalog h⟩

/-! ### Claim C5 -/

theorem execQuery_reqs (env : Env) (c2 : Conn) (reqs : List Req) (id sqlEff : String) :
    (execQuery env c2 reqs id sqlEff).reqs = reqs ++ [.exec id sqlEff] := by
  cases hq : env.queryResp id sqlEff <;> simp [execQuery, hq]

theorem execQuery_res (env : Env) (c2 : Conn) (reqs : List Req) (id sqlEff : String) :
    (execQuery env c2 reqs id sqlEff).res =
      (match env.queryResp id sqlEff with
       | none => .error .net
       | some resp => .ok (formatRows resp)) := by
  cases hq : env.queryResp id sqlEff <;> simp [execQuery, hq]

theorem query_run_last_some (c : Conn) (env : Env) (sql idn : String) (t : Meta)
    (hdr : List (String × String)) (hl : (c.login env).res = .ok hdr)
    (hlast : c._last_id_or_name = some t) (hidn : idn ≠ "") :
    c.query env sql idn =
      execQuery env
        { (c.login env).conn with _login := dictInsert hdr "Accept" "application/json" }
        (c.login env).reqs t.id (if sql = "" then "select * from table" else sql) := by
  rw [query_ok_login c env sql idn hdr hl]
  have hc1last : (c.login env).conn._last_id_or_name = some t := by
    rw [(login_conn_frame c env).2.1]; exact hlast
  simp only [ne_eq, hidn, not_false_eq_true, if_true, hc1last]

/-- Claim C5: with a prior successful resolution stored in
`_last_id_or_name`, a `query` call with any non-empty id_or_name uses the
previously resolved dataset's id in the execution request, leaves
`_last_id_or_name` unchanged, and its entire outcome is independent of
which non-empty id_or_name was passed. -/
theorem C5_idn_ignored (c : Conn) (env : Env) (sql idn : String) (t : Meta)
    (hdr : List (String × String)) (hl : (c.login env).res = .ok hdr)
    (hlast : c._last_id_or_name = some t) (hidn : idn ≠ "") :
    (c.query env sql idn).reqs =
      (c.login env).reqs ++ [.exec t.id (if sql = "" then "select * from table" else sql)] ∧
    (c.query env sql idn).conn._last_id_or_name = some t ∧
    (c.query env sql idn).res =
      (match env.queryResp t.id (if sql = "" then "select * from table" else sql) with
       | none => .error .net
       | some resp => .ok (formatRows resp)) ∧
    ∀ idn2, idn2 ≠ "" → c.query env sql idn2 = c.query env sql idn := by
  have hrun := query_run_last_some c env sql idn t hdr hl hlast hidn
  refine ⟨?_, ?_, ?_, ?_⟩
  · rw [hrun, execQuery_reqs]
  · rw [hrun]
    rw [execQuery_conn]
    have hfr := (login_conn_frame c env).2.1
    simp [hfr, hlast]
  · rw [hrun, execQuery_res]
  · intro idn2 hidn2
    rw [hrun, query_run_last_some c env sql idn2 t hdr hl hlast hidn2]

/-- A connection with a prior successful resolution of the Sales dataset. -/
def connResolved : Conn := { conn0 with _last_id_or_name := some ⟨"A1", "Sales"⟩ }

/-- Witness for C5_idn_ignored: passing "OTHER_ID" still queries dataset
"A1" from the prior resolution. -/
theorem C5_idn_ignored_witness :
    connResolved._last_id_or_name = some ⟨"A1", "Sales"⟩ ∧
    ((connResolved.query envEmpty "" "OTHER_ID").reqs =
       (connResolved.login envEmpty).reqs ++
         [.exec (Meta.mk "A1" "Sales").id (if "" = "" then "select * from table" else "")] ∧
     (connResolved.query envEmpty "" "OTHER_ID").conn._last_id_or_name =
       some ⟨"A1", "Sales"⟩ ∧
     (connResolved.query envEmpty "" "OTHER_ID").res =
       (match envEmpty.queryResp (Meta.mk "A1" "Sales").id
          (if "" = "" then "select * from table" else "") with
        | none => .error .net
        | some resp => .ok (formatRows resp)) ∧
     ∀ idn2, idn2 ≠ "" →
       connResolved.query envEmpty "" idn2 = connResolved.query envEmpty "" "OTHER_ID") :=
  ⟨rfl, C5_idn_ignored connResolved envEmpty "" "OTHER_ID" ⟨"A1", "Sales"⟩
    [("Authorization", "bearer " ++ "tok")] rfl rfl (by decide)⟩

/-! ### Claim C6 -/

/-- Claim C6: a query-execution response with `columns` and `rows` is
formatted as one record per row in server row order, each record being
`dict(zip(columns, row))`; when the column names are distinct, each record
maps the j-th column name to the j-th cell of its row. -/
theorem C6_zip_rows (c : Conn) (env : Env) (sql idn : String) (t : Meta)
    (hdr : List (String × String)) (resp : QueryResp)
    (hl : (c.login env).res = .ok hdr)
    (hlast : c._last_id_or_name = some t) (hidn : idn ≠ "")
    (hq : env.queryResp t.id (if sql = "" then "select * from table" else sql) = some resp) :
    (c.query env sql idn).res =
      .ok (resp.rows.map (fun row => dictOf (resp.columns.zip row))) ∧
    (resp.rows.map (fun row => dictOf (resp.columns.zip row))).length = resp.rows.length ∧
    (resp.columns.Nodup →
      ∀ row ∈ resp.rows, ∀ (j : Nat) (hj : j < resp.columns.length) (hr : j < row.length),
        dictLookup (dictOf (resp.columns.zip row)) (resp.columns.get ⟨j, hj⟩)
          = some (row.get ⟨j, hr⟩)) := by
  refine ⟨?_, by simp, ?_⟩
  · rw [query_run_last_some c env sql idn t hdr hl hlast hidn, execQuery_res, hq]
    rfl
  · intro hnd row _ j hj hr
    exact dictLookup_dictOf_zip resp.columns row hnd j hj hr

/-- The spec's example query response. -/
def respEx : QueryResp := ⟨["id", "val"], [[.int 1, .str "x"], [.int 2, .str "y"]]⟩

/-- A domain whose query endpoint always returns the example response. -/
def envQuery : Env := ⟨some "tok", [], fun _ => false, fun _ _ => some respEx⟩

/-- Witness for C6_zip_rows on the spec's example: the result is the two
records in order. -/
theorem C6_zip_rows_witness :
    envQuery.queryResp "A1" "select * from table" = some respEx ∧
    ((connResolved.query envQuery "" "A1").res =
       .ok (respEx.rows.map (fun row => dictOf (respEx.columns.zip row))) ∧
     (respEx.rows.map (fun row => dictOf (respEx.columns.zip row))).length =
       respEx.rows.length ∧
     (respEx.columns.Nodup →
       ∀ row ∈ respEx.rows, ∀ (j : Nat) (hj : j < respEx.columns.length)
         (hr : j < row.length),
         dictLookup (dictOf (respEx.columns.zip row)) (respEx.columns.get ⟨j, hj⟩)
           = some (row.get ⟨j, hr⟩))) ∧
    (connResolved.query envQuery "" "A1").res =
      .ok [[("id", .int 1), ("val", .str "x")], [("id", .int 2), ("val", .str "y")]] := by
  have happ := C6_zip_rows connResolved envQuery "" "A1" ⟨"A1", "Sales"⟩
    [("Authorization", "bearer " ++ "tok")] respEx rfl rfl (by decide) rfl
  refine ⟨rfl, happ, ?_⟩
  rw [happ.1]
  rfl

/-! ### Claim C10 -/

theorem isList_not_isExec (r : Req) (h : r.isList = true) : r.isExec = false := by
  cases r <;> simp_all [Req.isList, Req.isExec]

theorem query_run_resolve_none (c : Conn) (env : Env) (sql idn : String)
    (hdr : List (String × String)) (hl : (c.login env).res = .ok hdr)
    (hlast : c._last_id_or_name = none) (hidn : idn ≠ "") :
    c.query env sql idn =
      resolveAndExec env
        { (c.login env).conn with _login := dictInsert hdr "Accept" "application/json" }
        (c.login env).reqs idn (if sql = "" then "select * from table" else sql) := by
  rw [query_ok_login c env sql idn hdr hl]
  have hc1last : (c.login env).conn._last_id_or_name = none := by
    rw [(login_conn_frame c env).2.1]; exact hlast
  simp only [ne_eq, hidn, not_false_eq_true, if_true, hc1last]

/-- Claim C10: on a fresh connection with no prior resolution, a `query`
call passing a non-empty id_or_name matching no catalog entry fails with
the TypeError from indexing the absent `_last_id_or_name` (not the usage
error), only after the one authentication request and the full set of
catalog-listing requests (and before any query-execution request), and
`_last_id_or_name` remains unset. -/
theorem C10_miss_typeerror (c : Conn) (env : Env) (sql idn token : String)
    (hlogin : c._login = []) (htab : c._tables = []) (hlast : c._last_id_or_name = none)
    (ha : env.authResp = some token) (hne : ∀ k, env.listErr k = false)
    (hidn : idn ≠ "") (hmiss : scanTables env.catalog idn = none) :
    (c.query env sql idn).res = .error .typeError ∧
    (c.query env sql idn).conn._last_id_or_name = none ∧
    (c.query env sql idn).reqs = .auth c.client_id c.secret :: (paginate env 0).2 ∧
    (∀ r ∈ (c.query env sql idn).reqs, r.isExec = false) ∧
    ((c.query env sql idn).reqs.filter Req.isList).length
      = (env.catalog.length + 49) / 50 + 1 := by
  have hres : (c.login env).res = .ok [("Authorization", "bearer " ++ token)] := by
    rw [login_fresh_ok c env token hlogin ha]
  have hrun := query_run_resolve_none c env sql idn _ hres hlast hidn
  rw [hrun]
  set c1 : Conn := { (c.login env).conn with
    _login := dictInsert [("Authorization", "bearer " ++ token)] "Accept" "application/json" }
    with hc1
  have hc1login : c1._login ≠ [] := by rw [hc1]; simp [dictInsert_ne_nil]
  have hc1tab : c1._tables = [] := by rw [hc1]; simp [(login_conn_frame c env).1, htab]
  have hc1last2 : c1._last_id_or_name = none := by
    rw [hc1]; simp [(login_conn_frame c env).2.1, hlast]
  have hl1 : (c1.login env).res = .ok c1._login := by rw [login_cached c1 env hc1login]
  have hts := tables_fetch_ok c1 env c1._login hc1tab hl1 hne
  have htres : (c1.tables env).res = .ok env.catalog := by rw [hts]
  have hlreqs : (c1.login env).reqs = [] := by rw [login_cached c1 env hc1login]
  have htreqs : (c1.tables env).reqs = (paginate env 0).2 := by
    rw [hts]
    rw [hlreqs]
    simp
  have htconn_last : (c1.tables env).conn._last_id_or_name = none := by
    rw [tables_conn_last c1 env]; exact hc1last2
  have hf := find_table_run c1 env idn env.catalog htres
  rw [hmiss] at hf
  have hf2 : c1.find_table idn env =
      ⟨.ok none, (c1.tables env).conn, (c1.tables env).reqs⟩ := hf
  have hrun2 : resolveAndExec env c1 (c.login env).reqs idn
      (if sql = "" then "select * from table" else sql) =
      ⟨.error .typeError, (c1.tables env).conn,
        (c.login env).reqs ++ (c1.tables env).reqs⟩ := by
    simp only [resolveAndExec, hf2, htconn_last]
  have hreq0 : (c.login env).reqs = [.auth c.client_id c.secret] := by
    rw [login_fresh_ok c env token hlogin ha]
  rw [hrun2]
  refine ⟨rfl, htconn_last, ?_, ?_, ?_⟩
  · rw [hreq0, htreqs]
    simp
  · intro r hr
    rw [hreq0, htreqs] at hr
    simp only [List.singleton_append, List.mem_cons] at hr
    rcases hr with rfl | hr
    · rfl
    · exact isList_not_isExec r (paginate_reqs_isList env 0 r hr)
  · rw [hreq0, htreqs]
    have hfilt : (paginate env 0).2.filter Req.isList = (paginate env 0).2 :=
      List.filter_eq_self.mpr (fun r hr => paginate_reqs_isList env 0 r hr)
    have hcount := (paginate_no_err env hne 0).2
    simp only [List.singleton_append, List.filter_cons, Req.isList, List.length_cons, hfilt]
    simp only [Bool.false_eq_true, if_false, hfilt, hcount]
    simp

/-- Witness for C10_miss_typeerror: resolving "missing" against the
Sales/Inventory catalog. -/
theorem C10_miss_typeerror_witness :
    scanTables envSales.catalog "missing" = none ∧
    ((conn0.query envSales "" "missing").res = .error .typeError ∧
     (conn0.query envSales "" "missing").conn._last_id_or_name = none ∧
     (conn0.query envSales "" "missing").reqs =
       .auth conn0.client_id conn0.secret :: (paginate envSales 0).2 ∧
     (∀ r ∈ (conn0.query envSales "" "missing").reqs, r.isExec = false) ∧
     ((conn0.query envSales "" "missing").reqs.filter Req.isList).length
       = (envSales.catalog.length + 49) / 50 + 1) :=
  ⟨rfl, C10_miss_typeerror conn0 envSales "" "missing" "tok" rfl rfl rfl rfl
    (fun _ => rfl) (by decide) rfl⟩

end DomoQuery
